import Mathlib

/-!
Verification of the ecoSynthesIA document-analysis pipeline.

We give a shallow embedding of the Python code of the repository:
pure string post-processing functions become Lean functions on `String`
(modelled at the `List Char` level where Python's `str.replace` /
`str.strip` are involved, so that they stay easy to reason about),
floating-point scores become rationals, Python's heterogeneous dicts
become structures or inductives, and every external call (LLM chain,
vector retrieval, PDF parsing) becomes an explicit input of the
orchestration functions, with `Except` modelling a raised exception.
-/

namespace EcoSynthesIA

/-! ## Python string primitives -/

/-- Python whitespace characters stripped by `str.strip()`. -/
def pySpace (c : Char) : Bool :=
  c == ' ' || c == '\t' || c == '\n' || c == '\r' || c == '\x0b' || c == '\x0c'

/-- `str.strip()`: drop leading and trailing whitespace. -/
def pyStrip (s : String) : String :=
  ⟨((s.data.dropWhile pySpace).reverse.dropWhile pySpace).reverse⟩

/-- `str.lower()` (ASCII case folding, the only case appearing in the data). -/
def pyLower (s : String) : String :=
  ⟨s.data.map Char.toLower⟩

/-- `str.replace(c, "")` for a single-character pattern: remove all
occurrences of `c`. -/
def pyRemoveChar (c : Char) (s : String) : String :=
  ⟨s.data.filter (fun d => d != c)⟩

/-- `str.isdigit()`: non-empty and all characters are digits. -/
def pyIsDigit (s : String) : Bool :=
  !s.data.isEmpty && s.data.all Char.isDigit

/-- Python `needle in haystack` on strings (substring containment). -/
def pyIn (needle hay : String) : Bool :=
  (List.range (hay.data.length + 1)).any
    (fun i => needle.data.isPrefixOf (hay.data.drop i))

/-- Decimal value of a digit list. -/
def digitsVal (l : List Char) : Nat :=
  l.foldl (fun n c => 10 * n + (c.toNat - '0'.toNat)) 0

/-- `int(s)` on a digit string (the code only converts after `isdigit`). -/
def pyToInt (s : String) : Int :=
  (digitsVal s.data : Int)

/-- Python truthiness of an optional string (`if unit:`): `None` and the
empty string are falsy. -/
def pyTruthy : Option String → Bool
  | none => false
  | some s => !s.data.isEmpty

/-! ## Data model (`src/models.py`) -/

/-- The `page` field of `ExtractedDataPoint` is `Union[int, str]`. -/
inductive PyPage where
  | pInt (n : Int)
  | pStr (s : String)
deriving DecidableEq, Repr

/-- `ExtractedDataPoint` (pydantic model).  `chart_type` and
`indicator_category` are carried as plain strings; the extraction claims
never inspect them. -/
structure ExtractedDataPoint where
  key : String
  value : String
  unit : Option String
  page : PyPage
  confidence_score : ℚ
  chart_type : String
  indicator_category : String
deriving DecidableEq, Repr

/-- `ExtractionResult` (pydantic model). -/
structure ExtractionResult where
  extracted_points : List ExtractedDataPoint
deriving DecidableEq, Repr

/-! ## `src/config.py` -/

def MIN_CONFIDENCE_THRESHOLD_DATA : ℚ := mkRat 3 10

/-! ## `src/tasks/data_extraction/logic.py` -/

/-- The `no_data_patterns` list of `_has_quantifiable_value`. -/
def no_data_patterns : List String :=
  ["data not provided", "not available", "n/a", "unknown", "tbd",
   "to be determined"]

/-- `re.search(r'(19|20)\d{2}', value)`: some position starts with
`19` or `20` followed by two digits. -/
def hasYearPattern : List Char → Bool
  | c1 :: c2 :: c3 :: c4 :: rest =>
      (((c1 == '1' && c2 == '9') || (c1 == '2' && c2 == '0'))
        && c3.isDigit && c4.isDigit)
      || hasYearPattern (c2 :: c3 :: c4 :: rest)
  | _ => false

/-- `_has_quantifiable_value` from `logic.py`. -/
def _has_quantifiable_value (value : String) : Bool :=
  if (pyStrip value).data.isEmpty then false
  else if no_data_patterns.contains (pyStrip (pyLower value)) then false
  else if value.data.any Char.isDigit then true
  else if hasYearPattern value.data then true
  else false

/-- `_clean_value_and_unit` from `logic.py`.  `value.replace('$','')
.replace('€','').replace('%','')` removes every occurrence of those
single characters. -/
def _clean_value_and_unit (value : String) (unit : Option String) :
    String × Option String :=
  if value = "data not provided" then (value, unit)
  else
    let value := pyStrip value
    if pyTruthy unit
        && ["usd", "$", "%", "€"].contains (pyLower (unit.getD "")) then
      (pyStrip (pyRemoveChar '%' (pyRemoveChar '€' (pyRemoveChar '$' value))),
        unit)
    else (value, unit)

/-- The page-plausibility step of `validate_and_clean_extracted_data`:
a digit string becomes an `int`, everything else is left unchanged. -/
def cleanPage : PyPage → PyPage
  | .pInt n => .pInt n
  | .pStr s => if pyIsDigit s then .pInt (pyToInt s) else .pStr s

/-- One iteration of the loop of `validate_and_clean_extracted_data`:
`none` models a `continue`, `some p` a point appended to
`cleaned_points`. -/
def validateCleanStep (point : ExtractedDataPoint) :
    Option ExtractedDataPoint :=
  if !_has_quantifiable_value point.value then none
  else
    let cv := _clean_value_and_unit point.value point.unit
    let point := { point with value := cv.1, unit := cv.2 }
    if point.confidence_score < MIN_CONFIDENCE_THRESHOLD_DATA then none
    else some { point with page := cleanPage point.page }

/-- `validate_and_clean_extracted_data` from `logic.py`. -/
def validate_and_clean_extracted_data (extracted_result : ExtractionResult) :
    ExtractionResult :=
  ⟨extracted_result.extracted_points.filterMap validateCleanStep⟩

/-! Spec-side forms used to state claim C1. -/

/-- A point is retained iff its value is quantifiable and its confidence
score reaches the threshold. -/
def c1Keep (p : ExtractedDataPoint) : Bool :=
  _has_quantifiable_value p.value
    && decide (MIN_CONFIDENCE_THRESHOLD_DATA ≤ p.confidence_score)

/-- The transformation applied to a retained point. -/
def c1Clean (p : ExtractedDataPoint) : ExtractedDataPoint :=
  let cv := _clean_value_and_unit p.value p.unit
  { p with value := cv.1, unit := cv.2, page := cleanPage p.page }

/-! ## Supporting lemmas -/

theorem mem_of_mem_dropWhile {α : Type} (q : α → Bool) :
    ∀ (l : List α) (x : α), x ∈ l.dropWhile q → x ∈ l := by
  intro l
  induction l with
  | nil => intro x h; exact absurd h (by simp [List.dropWhile])
  | cons a t ih =>
    intro x h
    by_cases hq : q a
    · simp only [List.dropWhile, hq] at h
      exact List.mem_cons_of_mem a (ih x h)
    · simp only [List.dropWhile, hq] at h
      exact h

theorem pyStrip_all (q : Char → Bool) (s : String)
    (h : s.data.all q) : (pyStrip s).data.all q := by
  simp only [pyStrip, List.all_eq_true] at *
  intro c hc
  simp only [List.mem_reverse] at hc
  have hc2 := mem_of_mem_dropWhile _ _ _ hc
  simp only [List.mem_reverse] at hc2
  exact h c (mem_of_mem_dropWhile _ _ _ hc2)

theorem pyRemoveChar_all (c : Char) (s : String) :
    (pyRemoveChar c s).data.all (fun d => d != c) := by
  simp only [pyRemoveChar, List.all_eq_true]
  intro d hd
  exact (List.mem_filter.mp hd).2

theorem quantifiable_ne_data_not_provided (v : String)
    (h : _has_quantifiable_value v = true) : v ≠ "data not provided" := by
  intro hv
  rw [hv] at h
  exact absurd h (by decide)

theorem validateCleanStep_eq (p : ExtractedDataPoint) :
    validateCleanStep p = if c1Keep p then some (c1Clean p) else none := by
  unfold validateCleanStep c1Keep c1Clean
  by_cases hq : _has_quantifiable_value p.value
  · by_cases hc : p.confidence_score < MIN_CONFIDENCE_THRESHOLD_DATA
    · simp [hq, hc, not_le.mpr hc]
    · simp [hq, hc, not_lt.mp hc]
  · simp [hq]

theorem c1Clean_value_currency (p : ExtractedDataPoint) (u : String)
    (hkeep : c1Keep p = true) (hu : p.unit = some u)
    (hmem : pyLower u ∈ ["usd", "$", "%", "€"]) :
    (c1Clean p).value.data.all
      (fun c => !(c == '$' || c == '€' || c == '%')) := by
  have hq : _has_quantifiable_value p.value = true := by
    simp only [c1Keep, Bool.and_eq_true] at hkeep
    exact hkeep.1
  have hne := quantifiable_ne_data_not_provided p.value hq
  have htruthy : pyTruthy p.unit = true := by
    rw [hu]
    simp only [pyTruthy, Bool.not_eq_true']
    cases hud : u.data with
    | nil =>
      exfalso
      have : pyLower u = "" := by
        simp [pyLower, hud]
      rw [this] at hmem
      simp at hmem
    | cons a t => simp [hud]
  have hcontains : ["usd", "$", "%", "€"].contains (pyLower (p.unit.getD "")) = true := by
    rw [hu]
    simpa [List.contains, List.elem_iff] using hmem
  show ((_clean_value_and_unit p.value p.unit).1).data.all _
  unfold _clean_value_and_unit
  rw [if_neg hne, htruthy, hcontains]
  simp only [Bool.true_and, if_pos rfl]
  apply pyStrip_all
  have h1 := pyRemoveChar_all '%'
    (pyRemoveChar '€' (pyRemoveChar '$' (pyStrip p.value)))
  have h2 : (pyRemoveChar '€' (pyRemoveChar '$' (pyStrip p.value))).data.all
      (fun d => d != '€') := pyRemoveChar_all '€' _
  have h3 : (pyRemoveChar '$' (pyStrip p.value)).data.all
      (fun d => d != '$') := pyRemoveChar_all '$' _
  simp only [List.all_eq_true] at *
  intro c hc
  have hp := h1 c hc
  have he : c ∈ (pyRemoveChar '€' (pyRemoveChar '$' (pyStrip p.value))).data := by
    simp only [pyRemoveChar, List.mem_filter] at hc ⊢
    exact hc.1
  have hepf := h2 c he
  have hd : c ∈ (pyRemoveChar '$' (pyStrip p.value)).data := by
    simp only [pyRemoveChar, List.mem_filter] at he ⊢
    exact he.1
  have hdl := h3 c hd
  simp only [bne_iff_ne, ne_eq] at hp hepf hdl
  simp [hp, hepf, hdl]

/-- C1: `validate_and_clean_extracted_data` keeps exactly the points with a
quantifiable value and confidence at least `MIN_CONFIDENCE_THRESHOLD_DATA`;
a kept point with a currency-like unit has all `$`, `€`, `%` characters
removed from its value, a digit-string page is converted to an int, and the
key and confidence score are unchanged. -/
theorem C1_validate_and_clean (r : ExtractionResult) :
    (validate_and_clean_extracted_data r).extracted_points
        = (r.extracted_points.filter c1Keep).map c1Clean
    ∧ (∀ p : ExtractedDataPoint, c1Keep p = true →
        (∀ u : String, p.unit = some u → pyLower u ∈ ["usd", "$", "%", "€"] →
          (c1Clean p).value.data.all
            (fun c => !(c == '$' || c == '€' || c == '%')) = true)
        ∧ (∀ s : String, p.page = .pStr s → pyIsDigit s = true →
            (c1Clean p).page = .pInt (pyToInt s))
        ∧ (c1Clean p).key = p.key
        ∧ (c1Clean p).confidence_score = p.confidence_score) := by
  constructor
  · obtain ⟨pts⟩ := r
    show pts.filterMap validateCleanStep = (pts.filter c1Keep).map c1Clean
    induction pts with
    | nil => rfl
    | cons p rest ih =>
      simp only [List.filterMap_cons, List.filter_cons, validateCleanStep_eq]
      by_cases hk : c1Keep p
      · simp [hk, ih]
      · simp [hk, ih]
  · intro p hk
    refine ⟨fun u hu hmem => c1Clean_value_currency p u hk hu hmem, ?_, rfl, rfl⟩
    intro s hs hdig
    simp [c1Clean, cleanPage, hs, hdig]

/-- Witness for C1 at a concrete extraction result. -/
theorem C1_validate_and_clean_witness :
    (validate_and_clean_extracted_data
        ⟨[⟨"Total project cost Angola", " $400 ", some "USD", .pStr "3",
           mkRat 9 10, "BarChart", "finance_cost"⟩]⟩).extracted_points
      = ([(⟨"Total project cost Angola", " $400 ", some "USD", .pStr "3",
           mkRat 9 10, "BarChart", "finance_cost"⟩ : ExtractedDataPoint)].filter
            c1Keep).map c1Clean
    ∧ (c1Clean ⟨"Total project cost Angola", " $400 ", some "USD", .pStr "3",
         mkRat 9 10, "BarChart", "finance_cost"⟩).value.data.all
        (fun c => !(c == '$' || c == '€' || c == '%')) = true
    ∧ (c1Clean ⟨"Total project cost Angola", " $400 ", some "USD", .pStr "3",
         mkRat 9 10, "BarChart", "finance_cost"⟩).page = .pInt 3 := by
  have h := C1_validate_and_clean
    ⟨[⟨"Total project cost Angola", " $400 ", some "USD", .pStr "3",
       mkRat 9 10, "BarChart", "finance_cost"⟩]⟩
  have hk : c1Keep ⟨"Total project cost Angola", " $400 ", some "USD",
      .pStr "3", mkRat 9 10, "BarChart", "finance_cost"⟩ = true := by decide
  refine ⟨h.1, ?_, ?_⟩
  · exact (h.2 _ hk).1 "USD" rfl (by decide)
  · exact (h.2 _ hk).2.1 "3" rfl (by decide)

/-! ## `src/benchmarcking/utils/evaluations.py` -/

/-- A fact entry of the `facts` list: a dict whose `key` / `value` / `unit`
entries are strings when present (`dict.get` falls back to `''`), or a
malformed entry (a non-dict, or one with non-string field values) whose
processing raises `AttributeError` and is skipped by the `except`. -/
inductive Fact where
  | mk (key value unit : Option String)
  | malformed
deriving DecidableEq, Repr

/-- The objects compared by `evaluate_data_extraction`: a dict with a
`facts` key, or anything else (yielding an empty fact list). -/
inductive DataObject where
  | withFacts (facts : List Fact)
  | other
deriving DecidableEq, Repr

/-- `fact_list` as selected at the top of `normalize_data_keys`. -/
def factList : DataObject → List Fact
  | .withFacts l => l
  | .other => []

/-- The body of the loop of `normalize_data_keys`: the normalized triple
added to the set, or `none` when the fact is skipped. -/
def normFact : Fact → Option (String × String × String)
  | .malformed => none
  | .mk k v u =>
      let key := pyStrip (pyLower (k.getD ""))
      let value := pyStrip (pyLower (v.getD ""))
      let unit := pyStrip (pyLower (u.getD ""))
      if !key.data.isEmpty && !value.data.isEmpty
          && value ≠ "data not provided" then some (key, value, unit)
      else none

/-- `normalize_data_keys` from `evaluations.py`: the Python `set` of
normalized `(key, value, unit)` triples. -/
def normalize_data_keys (data_object : DataObject) :
    Finset (String × String × String) :=
  ((factList data_object).filterMap normFact).toFinset

/-- A Python value that is either a bool or a number (the
`is_valid_json` entry is `True` on success and `0.0` on parse failure). -/
inductive PyBoolNum where
  | pybool (b : Bool)
  | pynum (q : ℚ)
deriving DecidableEq, Repr

/-- The dictionary returned by `evaluate_data_extraction`. -/
structure ExtractionMetrics where
  extraction_precision : ℚ
  extraction_recall : ℚ
  extraction_f1 : ℚ
  is_valid_json : PyBoolNum
deriving DecidableEq, Repr

/-- `evaluate_data_extraction` from `evaluations.py`.  `json.loads` of the
generated string is modelled by an `Option DataObject` input: `none` for a
`JSONDecodeError`. -/
def evaluate_data_extraction (generated_parse : Option DataObject)
    (reference_json : DataObject) : ExtractionMetrics :=
  match generated_parse with
  | none => ⟨0, 0, 0, .pynum 0⟩
  | some generated_data =>
      let reference_facts := normalize_data_keys reference_json
      let generated_facts := normalize_data_keys generated_data
      let true_positives := (reference_facts ∩ generated_facts).card
      let possible_positives := reference_facts.card
      let generated_positives := generated_facts.card
      let prec : ℚ :=
        if 0 < generated_positives then
          (true_positives : ℚ) / (generated_positives : ℚ) else 0
      let rcl : ℚ :=
        if 0 < possible_positives then
          (true_positives : ℚ) / (possible_positives : ℚ) else 0
      let f1_score : ℚ :=
        if 0 < prec + rcl then
          2 * (prec * rcl) / (prec + rcl) else 0
      ⟨prec, rcl, f1_score, .pybool true⟩

theorem normFact_mem (f : Fact) (t : String × String × String) :
    normFact f = some t ↔
      ∃ k v u, f = Fact.mk k v u
        ∧ t = (pyStrip (pyLower (k.getD "")), pyStrip (pyLower (v.getD "")),
               pyStrip (pyLower (u.getD "")))
        ∧ t.1 ≠ "" ∧ t.2.1 ≠ "" ∧ t.2.1 ≠ "data not provided" := by
  cases f with
  | malformed => simp [normFact]
  | mk k v u =>
    simp only [normFact]
    constructor
    · intro h
      split at h
      case isTrue hcond =>
        simp only [Bool.and_eq_true, Bool.not_eq_true', List.isEmpty_eq_false,
          decide_eq_true_eq] at hcond
        obtain ⟨⟨hk, hv⟩, hdnp⟩ := hcond
        obtain rfl : t = _ := (Option.some_inj.mp h).symm
        refine ⟨k, v, u, rfl, rfl, ?_, ?_, hdnp⟩
        · show pyStrip (pyLower (k.getD "")) ≠ ""
          intro he
          exact hk (congrArg String.data he)
        · show pyStrip (pyLower (v.getD "")) ≠ ""
          intro he
          exact hv (congrArg String.data he)
      case isFalse => exact absurd h (by simp)
    · rintro ⟨k', v', u', hf, rfl, h1, h2, h3⟩
      obtain ⟨rfl, rfl, rfl⟩ : k' = k ∧ v' = v ∧ u' = u := by
        injection hf with a b c
        exact ⟨a.symm, b.symm, c.symm⟩
      rw [if_pos]
      simp only [Bool.and_eq_true, Bool.not_eq_true', List.isEmpty_eq_false,
        decide_eq_true_eq]
      refine ⟨⟨?_, ?_⟩, h3⟩
      · intro he
        exact h1 (congrArg String.mk he)
      · intro he
        exact h2 (congrArg String.mk he)

theorem mem_normalize_data_keys (d : DataObject)
    (t : String × String × String) :
    t ∈ normalize_data_keys d ↔
      ∃ k v u, Fact.mk k v u ∈ factList d
        ∧ t = (pyStrip (pyLower (k.getD "")), pyStrip (pyLower (v.getD "")),
               pyStrip (pyLower (u.getD "")))
        ∧ t.1 ≠ "" ∧ t.2.1 ≠ "" ∧ t.2.1 ≠ "data not provided" := by
  simp only [normalize_data_keys, List.mem_toFinset, List.mem_filterMap]
  constructor
  · rintro ⟨f, hf, hnf⟩
    rw [normFact_mem] at hnf
    obtain ⟨k, v, u, rfl, ht, h1, h2, h3⟩ := hnf
    exact ⟨k, v, u, hf, ht, h1, h2, h3⟩
  · rintro ⟨k, v, u, hmem, ht, h1, h2, h3⟩
    exact ⟨Fact.mk k v u, hmem,
      (normFact_mem _ _).mpr ⟨k, v, u, rfl, ht, h1, h2, h3⟩⟩

theorem eval_precision_eq (g r : DataObject) :
    (evaluate_data_extraction (some g) r).extraction_precision
      = if 0 < (normalize_data_keys g).card then
          (((normalize_data_keys r ∩ normalize_data_keys g).card : ℚ))
            / ((normalize_data_keys g).card : ℚ)
        else 0 := rfl

theorem eval_recall_eq (g r : DataObject) :
    (evaluate_data_extraction (some g) r).extraction_recall
      = if 0 < (normalize_data_keys r).card then
          (((normalize_data_keys r ∩ normalize_data_keys g).card : ℚ))
            / ((normalize_data_keys r).card : ℚ)
        else 0 := rfl

theorem eval_f1_eq (g r : DataObject) :
    (evaluate_data_extraction (some g) r).extraction_f1
      = if 0 < (evaluate_data_extraction (some g) r).extraction_precision
            + (evaluate_data_extraction (some g) r).extraction_recall then
          2 * ((evaluate_data_extraction (some g) r).extraction_precision
               * (evaluate_data_extraction (some g) r).extraction_recall)
            / ((evaluate_data_extraction (some g) r).extraction_precision
               + (evaluate_data_extraction (some g) r).extraction_recall)
        else 0 := rfl

theorem eval_precision_nonneg (g r : DataObject) :
    0 ≤ (evaluate_data_extraction (some g) r).extraction_precision := by
  rw [eval_precision_eq]
  split
  · positivity
  · exact le_rfl

theorem eval_recall_nonneg (g r : DataObject) :
    0 ≤ (evaluate_data_extraction (some g) r).extraction_recall := by
  rw [eval_recall_eq]
  split
  · positivity
  · exact le_rfl

/-- C2: on valid JSON, `evaluate_data_extraction` returns
precision `|R ∩ G| / |G|` (0 when `|G| = 0`), recall `|R ∩ G| / |R|`
(0 when `|R| = 0`), and the harmonic F1 (0 when precision + recall = 0),
where `R` / `G` are the normalized fact sets of the reference and the
generated object (lowercased, stripped `(key, value, unit)` triples,
excluding facts with an empty key, an empty value, or the value
`data not provided`); on a JSON parse failure it returns all four entries
equal to `0.0`. -/
theorem C2_evaluate_data_extraction (g r : DataObject) :
    (evaluate_data_extraction none r = ⟨0, 0, 0, .pynum 0⟩)
    ∧ ((normalize_data_keys g).card = 0 →
        (evaluate_data_extraction (some g) r).extraction_precision = 0)
    ∧ ((normalize_data_keys g).card ≠ 0 →
        (evaluate_data_extraction (some g) r).extraction_precision
          = ((normalize_data_keys r ∩ normalize_data_keys g).card : ℚ)
            / ((normalize_data_keys g).card : ℚ))
    ∧ ((normalize_data_keys r).card = 0 →
        (evaluate_data_extraction (some g) r).extraction_recall = 0)
    ∧ ((normalize_data_keys r).card ≠ 0 →
        (evaluate_data_extraction (some g) r).extraction_recall
          = ((normalize_data_keys r ∩ normalize_data_keys g).card : ℚ)
            / ((normalize_data_keys r).card : ℚ))
    ∧ ((evaluate_data_extraction (some g) r).extraction_precision
          + (evaluate_data_extraction (some g) r).extraction_recall = 0 →
        (evaluate_data_extraction (some g) r).extraction_f1 = 0)
    ∧ ((evaluate_data_extraction (some g) r).extraction_precision
          + (evaluate_data_extraction (some g) r).extraction_recall ≠ 0 →
        (evaluate_data_extraction (some g) r).extraction_f1
          = 2 * ((evaluate_data_extraction (some g) r).extraction_precision
                 * (evaluate_data_extraction (some g) r).extraction_recall)
            / ((evaluate_data_extraction (some g) r).extraction_precision
               + (evaluate_data_extraction (some g) r).extraction_recall))
    ∧ (∀ t : String × String × String,
        t ∈ normalize_data_keys r ↔
          ∃ k v u, Fact.mk k v u ∈ factList r
            ∧ t = (pyStrip (pyLower (k.getD "")),
                   pyStrip (pyLower (v.getD "")),
                   pyStrip (pyLower (u.getD "")))
            ∧ t.1 ≠ "" ∧ t.2.1 ≠ "" ∧ t.2.1 ≠ "data not provided") := by
  refine ⟨rfl, ?_, ?_, ?_, ?_, ?_, ?_, fun t => mem_normalize_data_keys r t⟩
  · intro h
    rw [eval_precision_eq, if_neg]
    omega
  · intro h
    rw [eval_precision_eq, if_pos (Nat.pos_of_ne_zero h)]
  · intro h
    rw [eval_recall_eq, if_neg]
    omega
  · intro h
    rw [eval_recall_eq, if_pos (Nat.pos_of_ne_zero h)]
  · intro h
    rw [eval_f1_eq, if_neg]
    rw [h]
    exact lt_irrefl 0
  · intro h
    rw [eval_f1_eq, if_pos]
    exact lt_of_le_of_ne
      (add_nonneg (eval_precision_nonneg g r) (eval_recall_nonneg g r))
      (Ne.symm h)

/-- Witness for C2 at concrete generated and reference objects. -/
theorem C2_evaluate_data_extraction_witness :
    (evaluate_data_extraction
        (some (.withFacts [.mk (some "CO2") (some " 500 ") (some "T"),
                           .mk (some "GDP") (some "x") none]))
        (.withFacts [.mk (some " co2 ") (some "500") (some "t")])
      ).extraction_precision = mkRat 1 2
    ∧ (evaluate_data_extraction
        (some (.withFacts [.mk (some "CO2") (some " 500 ") (some "T"),
                           .mk (some "GDP") (some "x") none]))
        (.withFacts [.mk (some " co2 ") (some "500") (some "t")])
      ).extraction_recall = 1
    ∧ ("co2", "500", "t")
        ∈ normalize_data_keys
            (.withFacts [.mk (some " co2 ") (some "500") (some "t")]) := by
  have h := C2_evaluate_data_extraction
    (.withFacts [.mk (some "CO2") (some " 500 ") (some "T"),
                 .mk (some "GDP") (some "x") none])
    (.withFacts [.mk (some " co2 ") (some "500") (some "t")])
  refine ⟨?_, ?_, ?_⟩
  · have hp := h.2.2.1 (by decide)
    rw [hp]
    norm_num [show (normalize_data_keys
        (DataObject.withFacts [.mk (some " co2 ") (some "500") (some "t")])
        ∩ normalize_data_keys
        (DataObject.withFacts [.mk (some "CO2") (some " 500 ") (some "T"),
                               .mk (some "GDP") (some "x") none])).card = 1
      from by decide,
      show (normalize_data_keys
        (DataObject.withFacts [.mk (some "CO2") (some " 500 ") (some "T"),
                               .mk (some "GDP") (some "x") none])).card = 2
      from by decide]
  · have hr := h.2.2.2.2.1 (by decide)
    rw [hr]
    norm_num [show (normalize_data_keys
        (DataObject.withFacts [.mk (some " co2 ") (some "500") (some "t")])
        ∩ normalize_data_keys
        (DataObject.withFacts [.mk (some "CO2") (some " 500 ") (some "T"),
                               .mk (some "GDP") (some "x") none])).card = 1
      from by decide,
      show (normalize_data_keys
        (DataObject.withFacts [.mk (some " co2 ") (some "500") (some "t")])).card = 1
      from by decide]
  · exact (h.2.2.2.2.2.2.2 ("co2", "500", "t")).mpr
      ⟨some " co2 ", some "500", some "t", by decide, by decide,
        by decide, by decide, by decide⟩

/-! ## Documents, chunks and traced steps -/

/-- A langchain `Document` chunk as used by the orchestration: its text and
its `page` metadata entry (absent for chunks without one). -/
structure Doc where
  page_content : String
  page : Option Int
deriving DecidableEq, Repr

/-- `doc.page_content[:50]`, the key hashed for deduplication. -/
def prefix50 (d : Doc) : String :=
  ⟨d.page_content.data.take 50⟩

/-- The hash used for deduplication.  Python's `hash` is an unspecified
function of the prefix string, so all definitions are parametric in it. -/
def hashOf (h : String → Int) (d : Doc) : Int :=
  h (prefix50 d)

/-- Observable model/chain invocations, with the input each one received. -/
inductive Step where
  | llamaExtract (input : String)
  | jsonFormat (input : String)
  | extractionChain (input : String)
  | summaryChain (input : String)
  | confidenceChain (input : String)
  | classifyStep (input : String)
deriving DecidableEq, Repr

/-! ## `src/tasks/data_extraction/chain.py` -/

/-- An LLM invocation: the model's output together with the traced step. -/
def runLLM (tag : String → Step) (model : String → String) (input : String) :
    String × List Step :=
  (model input, [tag input])

/-- `create_extraction_chain`: `llama_chain | {llama_output: passthrough}
| formatting_chain`.  The formatting prompt receives the Llama output
verbatim, so the composite pipes the first model's output into the
second. -/
def full_extraction_chain (llama_llm formatting_llm : String → String)
    (input : String) : String × List Step :=
  let l := runLLM Step.llamaExtract llama_llm input
  let f := runLLM Step.jsonFormat formatting_llm l.1
  (f.1, l.2 ++ f.2)

/-- `suspicious_keywords` from `_validate_and_filter_extractions`. -/
def suspicious_keywords : List String :=
  ["table of contents", "list of figures", "abbreviations"]

/-- A raw extracted point, a dict produced by the JSON parser; the fields
the filter reads, accessed with `dict.get` (values modelled as strings,
on which Python's `str()` is the identity). -/
structure RawPoint where
  key : Option String
  value : Option String
  unit : Option String
deriving DecidableEq, Repr

/-- The dict handed to `_validate_and_filter_extractions`: the optional
`extracted_points` entry plus the remaining entries, untouched by the
filter. -/
structure ResultDict where
  extracted_points : Option (List RawPoint)
  extra : List (String × String)
deriving DecidableEq, Repr

/-- The loop body of `_validate_and_filter_extractions`: `true` iff the
point passes every rejection test. -/
def validatePointStep (point : RawPoint) : Bool :=
  let key := pyLower (point.key.getD "")
  let value := pyStrip (point.value.getD "")
  if key.data.length < 10 then false
  else if value.data.isEmpty || pyLower value == "data not provided" then
    false
  else if suspicious_keywords.any (fun kw => pyIn kw key) then false
  else if pyIsDigit (pyRemoveChar ',' (pyRemoveChar '.' value))
      && !pyTruthy point.unit then false
  else true

/-- `_validate_and_filter_extractions` from `chain.py`. -/
def _validate_and_filter_extractions (result_dict : ResultDict) :
    ResultDict :=
  match result_dict.extracted_points with
  | none => result_dict
  | some points =>
      { result_dict with
        extracted_points := some (points.filter validatePointStep) }

/-! ## `src/orchestration/service.py`: data extraction pipeline -/

/-- The externally supplied outcomes the extraction pipeline consumes:
the retrieval result, the `pdfplumber` table-page scan, the
`load_and_split_pdf` force-read (each `Except.error` models a raised
exception caught by the corresponding `try`), and the outcome of
`invoke_extraction_chain` on a given context. -/
structure ExtractionEnv where
  retrieved : List Doc
  tablePages : Except Unit (List Int)
  allPages : Except Unit (List Doc)
  chainResult : String → Except Unit ExtractionResult

/-- `table_pages` after the first `try` (an exception leaves it empty). -/
def tablePagesOf (env : ExtractionEnv) : List Int :=
  match env.tablePages with
  | .ok l => l
  | .error _ => []

/-- `priority_pages = list(range(3)) + table_pages`. -/
def priorityPages (env : ExtractionEnv) : List Int :=
  [0, 1, 2] ++ tablePagesOf env

/-- `page_num in priority_pages`: a chunk with no `page` metadata entry
(`None`) is never a priority page. -/
def pagePriority (pp : List Int) : Option Int → Bool
  | some n => decide (n ∈ pp)
  | none => false

/-- The loop collecting `priority_docs`: keep a chunk whose page is a
priority page and whose content-prefix hash is not yet seen. -/
def pickPriorityDocs (h : String → Int) (pp : List Int) :
    List Doc → List Int → List Doc
  | [], _ => []
  | d :: rest, seen =>
      if pagePriority pp d.page then
        if hashOf h d ∈ seen then pickPriorityDocs h pp rest seen
        else d :: pickPriorityDocs h pp rest (hashOf h d :: seen)
      else pickPriorityDocs h pp rest seen

/-- `priority_docs`, seeded with the hashes of the retrieved chunks
(empty when `load_and_split_pdf` raised). -/
def priorityDocs (h : String → Int) (env : ExtractionEnv) : List Doc :=
  match env.allPages with
  | .error _ => []
  | .ok all_pages =>
      pickPriorityDocs h (priorityPages env) all_pages
        (env.retrieved.map (hashOf h))

/-- `retrieved_documents = priority_docs + retrieved_documents` (left
unchanged when the force-read `try` fails). -/
def mergedDocs (h : String → Int) (env : ExtractionEnv) : List Doc :=
  match env.allPages with
  | .error _ => env.retrieved
  | .ok _ => priorityDocs h env ++ env.retrieved

def MAX_CHUNKS : Nat := 20

/-- The truncation step: a list longer than `MAX_CHUNKS` is cut to its
first `MAX_CHUNKS` elements. -/
def contextDocs (h : String → Int) (env : ExtractionEnv) : List Doc :=
  let m := mergedDocs h env
  if MAX_CHUNKS < m.length then m.take MAX_CHUNKS else m

/-- `prepare_context_for_extraction` from
`src/tasks/data_extraction/logic.py`. -/
def pageDisplay : Option Int → String
  | some n => toString (n + 1)
  | none => "unknown"

def prepare_context_for_extraction (documents : List Doc) : String :=
  documents.foldl
    (fun acc doc =>
      acc ++ "\n\n--- Document Part from Page " ++ pageDisplay doc.page
        ++ " ---\n\n" ++ doc.page_content)
    ""

/-- `chart_type_mapping.get(chart_type_str, None)` from the API
conversion loop. -/
def chartTypeMapping : String → Option String
  | "LineChart" => some "line"
  | "BarChart" => some "bar"
  | "PieChart" => some "pie"
  | "ChoroplethMap" => some "choropleth"
  | _ => none

/-- A dictionary of the list returned to the API. -/
structure ApiPoint where
  key : String
  value : String
  unit : Option String
  page : Option PyPage
  confidence_score : ℚ
  chart_type : Option String
  indicator_category : String
deriving DecidableEq, Repr

/-- The API-format conversion at the end of
`process_document_for_data_extraction`. -/
def toApiPoint (point : ExtractedDataPoint) : ApiPoint :=
  { key := point.key
    value := point.value
    unit := point.unit
    page := if point.page = .pStr "unknown" then none else some point.page
    confidence_score := point.confidence_score
    chart_type :=
      if point.chart_type.data.isEmpty then none
      else chartTypeMapping point.chart_type
    indicator_category := point.indicator_category }

/-- `process_document_for_data_extraction` from `service.py`, returning
the API list together with the trace of chain invocations. -/
def process_document_for_data_extraction (h : String → Int)
    (env : ExtractionEnv) : List ApiPoint × List Step :=
  if env.retrieved.isEmpty then ([], [])
  else
    match env.chainResult (prepare_context_for_extraction (contextDocs h env)) with
    | .error _ =>
        ([], [Step.extractionChain
                (prepare_context_for_extraction (contextDocs h env))])
    | .ok raw =>
        ((validate_and_clean_extracted_data raw).extracted_points.map
            toApiPoint,
         [Step.extractionChain
            (prepare_context_for_extraction (contextDocs h env))])

/-! ## `src/orchestration/service.py`: summary pipeline -/

/-- The externally supplied pieces of `process_document_for_summary`.
`post` models `post_process_summary` and `prepareContext` models
`prepare_context_for_summary` (their module, `src/tasks/summary/logic.py`,
is not part of the sources; the claims treat both as opaque
transformations).  `summaryLLM`, `confidence` and `classify` are the
summary chain, the confidence chain and `classify_summary`. -/
structure SummaryEnv where
  cover : List Doc
  intro : List Doc
  technical : List Doc
  socio : List Doc
  project : List Doc
  allPages : Except Unit (List Doc)
  fileTitle : String
  prepareContext : List Doc → String
  summaryLLM : String → String
  post : String → String
  confidence : String → Except Unit ℚ
  classify : String → String

/-- The fusion-and-deduplication loop: keep each chunk whose
content-prefix hash is new, returning the kept chunks and the final
`seen_content` set. -/
def dedupConcat (h : String → Int) :
    List Doc → List Int → List Doc × List Int
  | [], seen => ([], seen)
  | d :: rest, seen =>
      if hashOf h d ∈ seen then dedupConcat h rest seen
      else
        let r := dedupConcat h rest (hashOf h d :: seen)
        (d :: r.1, r.2)

/-- The force-read prepend loop: each fresh first-page chunk is inserted
at index 0, so the kept ones end up in reverse order in front. -/
def forceReadPrepend (h : String → Int) :
    List Doc → List Doc → List Int → List Doc
  | [], acc, _ => acc
  | d :: rest, acc, seen =>
      if hashOf h d ∈ seen then forceReadPrepend h rest acc seen
      else forceReadPrepend h rest (d :: acc) (hashOf h d :: seen)

/-- `[p for p in all_pages if p.metadata.get("page", 999) < 2]`. -/
def firstPagesOf (l : List Doc) : List Doc :=
  l.filter (fun p => decide (p.page.getD 999 < 2))

/-- The five retrieval results in processing order. -/
def summaryCandidates (env : SummaryEnv) : List Doc :=
  env.cover ++ env.intro ++ env.technical ++ env.socio ++ env.project

/-- `retrieved_documents` of the summary pipeline after fusion,
deduplication and the force-read fallback. -/
def summaryChunks (h : String → Int) (env : SummaryEnv) : List Doc :=
  match env.allPages with
  | .error _ => (dedupConcat h (summaryCandidates env) []).1
  | .ok all_pages =>
      forceReadPrepend h (firstPagesOf all_pages)
        (dedupConcat h (summaryCandidates env) []).1
        (dedupConcat h (summaryCandidates env) []).2

/-- The result dictionary of `process_document_for_summary`. -/
structure SummaryOut where
  textual_summary : String
  confidence_score : ℚ
  category_name : String
deriving DecidableEq, Repr

/-- The filename-title injection:
`if file_title and "document" not in file_title.lower()[:15]`. -/
def contextWithTitle (env : SummaryEnv) (ctx : String) : String :=
  if !env.fileTitle.data.isEmpty
      && !pyIn "document" ⟨(pyLower env.fileTitle).data.take 15⟩ then
    "[DOCUMENT FILENAME: " ++ env.fileTitle ++ "]\n\n" ++ ctx
  else ctx

/-- The document context handed to the summary chain. -/
def summaryContext (h : String → Int) (env : SummaryEnv) : String :=
  contextWithTitle env (env.prepareContext (summaryChunks h env))

/-- `final_summary = post_process_summary(invoke_summary_chain(...))`. -/
def finalSummaryOf (h : String → Int) (env : SummaryEnv) : String :=
  env.post (env.summaryLLM (summaryContext h env))

/-- The RAG-failure fallback dictionary. -/
def summaryFallback : SummaryOut :=
  ⟨"Error: Document context not available from RAG.", 0, "Unknown"⟩

/-- `process_document_for_summary` from `service.py`, returning the
result dictionary together with the trace of chain invocations. -/
def process_document_for_summary (h : String → Int) (env : SummaryEnv) :
    SummaryOut × List Step :=
  if (summaryChunks h env).isEmpty then (summaryFallback, [])
  else
    (⟨finalSummaryOf h env,
      (match env.confidence (finalSummaryOf h env) with
        | .ok q => q
        | .error _ => mkRat 1 2),
      (if (env.classify (finalSummaryOf h env)).data.isEmpty then "Unknown"
       else env.classify (finalSummaryOf h env))⟩,
     [Step.summaryChain (summaryContext h env),
      Step.confidenceChain (finalSummaryOf h env),
      Step.classifyStep (finalSummaryOf h env)])
theorem mergedDocs_eq (h : String → Int) (env : ExtractionEnv) :
    mergedDocs h env = priorityDocs h env ++ env.retrieved := by
  unfold mergedDocs priorityDocs
  cases env.allPages with
  | error e => rfl
  | ok l => rfl

/-- C3: on empty retrieval each pipeline returns its fixed fallback
without invoking any chain: the extraction pipeline returns the empty
list with an empty trace, and the summary pipeline, when the combined
deduplicated chunk list is empty, returns exactly the error summary with
confidence 0 and category `Unknown`, also with an empty trace. -/
theorem C3_empty_retrieval_fallbacks (h : String → Int)
    (envE : ExtractionEnv) (envS : SummaryEnv) :
    (envE.retrieved = [] →
      process_document_for_data_extraction h envE = ([], []))
    ∧ (summaryChunks h envS = [] →
      process_document_for_summary h envS
        = (⟨"Error: Document context not available from RAG.", 0,
            "Unknown"⟩, [])) := by
  constructor
  · intro hE
    unfold process_document_for_data_extraction
    rw [hE]
    rfl
  · intro hS
    unfold process_document_for_summary
    rw [hS]
    rfl

/-- Witness for C3 at a concrete empty environment. -/
theorem C3_empty_retrieval_fallbacks_witness :
    process_document_for_data_extraction (fun _ => 0)
        ⟨[], .ok [], .ok [], fun _ => .error ()⟩ = ([], [])
    ∧ process_document_for_summary (fun _ => 0)
        ⟨[], [], [], [], [], .ok [], "", fun _ => "", fun s => s,
          fun s => s, fun _ => .error (), fun _ => ""⟩
        = (⟨"Error: Document context not available from RAG.", 0,
            "Unknown"⟩, []) := by
  have h := C3_empty_retrieval_fallbacks (fun _ => 0)
    ⟨[], .ok [], .ok [], fun _ => .error ()⟩
    ⟨[], [], [], [], [], .ok [], "", fun _ => "", fun s => s,
      fun s => s, fun _ => .error (), fun _ => ""⟩
  exact ⟨h.1 rfl, h.2 rfl⟩

theorem process_summary_nonempty (h : String → Int) (env : SummaryEnv)
    (hne : summaryChunks h env ≠ []) :
    process_document_for_summary h env
      = (⟨finalSummaryOf h env,
          (match env.confidence (finalSummaryOf h env) with
            | .ok q => q
            | .error _ => mkRat 1 2),
          (if (env.classify (finalSummaryOf h env)).data.isEmpty then
            "Unknown" else env.classify (finalSummaryOf h env))⟩,
         [Step.summaryChain (summaryContext h env),
          Step.confidenceChain (finalSummaryOf h env),
          Step.classifyStep (finalSummaryOf h env)]) := by
  unfold process_document_for_summary
  have hie : (summaryChunks h env).isEmpty = false := by
    cases hd : summaryChunks h env with
    | nil => exact absurd hd hne
    | cons a l => rfl
  rw [hie]
  rfl

/-- C4: when the confidence chain raises, the summary result still comes
back, its confidence score is 0.5, and both the summary text and the
category are the same as they would be with a succeeding confidence
chain; the classification step still runs on the final summary. -/
theorem C4_confidence_exception (h : String → Int) (env : SummaryEnv)
    (q : ℚ) (hne : summaryChunks h env ≠ [])
    (hconf : env.confidence (finalSummaryOf h env) = .error ()) :
    (process_document_for_summary h env).1.confidence_score = mkRat 1 2
    ∧ (process_document_for_summary h env).1.textual_summary
        = finalSummaryOf h env
    ∧ (process_document_for_summary h env).1.textual_summary
        = (process_document_for_summary h
            { env with confidence := fun _ => .ok q }).1.textual_summary
    ∧ (process_document_for_summary h env).1.category_name
        = (process_document_for_summary h
            { env with confidence := fun _ => .ok q }).1.category_name
    ∧ Step.classifyStep (finalSummaryOf h env)
        ∈ (process_document_for_summary h env).2 := by
  have henv' : summaryChunks h { env with confidence := fun _ => .ok q }
      = summaryChunks h env := rfl
  have h1 := process_summary_nonempty h env hne
  have h2 := process_summary_nonempty h
    { env with confidence := fun _ => .ok q } (by rw [henv']; exact hne)
  rw [h1, h2]
  rw [hconf]
  refine ⟨rfl, rfl, rfl, rfl, ?_⟩
  simp

/-- Witness for C4: a concrete environment with one retrieved chunk and a
failing confidence chain. -/
theorem C4_confidence_exception_witness :
    (process_document_for_summary (fun _ => 0)
        ⟨[⟨"chunk text", some 0⟩], [], [], [], [], .error (), "",
          fun _ => "ctx", fun _ => "raw summary", fun s => s,
          fun _ => .error (), fun _ => "CLIMATE"⟩).1.confidence_score
      = mkRat 1 2
    ∧ (process_document_for_summary (fun _ => 0)
        ⟨[⟨"chunk text", some 0⟩], [], [], [], [], .error (), "",
          fun _ => "ctx", fun _ => "raw summary", fun s => s,
          fun _ => .error (), fun _ => "CLIMATE"⟩).1.textual_summary
      = "raw summary" := by
  have h := C4_confidence_exception (fun _ => 0)
    ⟨[⟨"chunk text", some 0⟩], [], [], [], [], .error (), "",
      fun _ => "ctx", fun _ => "raw summary", fun s => s,
      fun _ => .error (), fun _ => "CLIMATE"⟩ 1
    (by intro he; exact absurd (congrArg List.length he) (by decide))
    rfl
  exact ⟨h.1, h.2.1⟩

/-- C5: the extraction chain pipes the Llama model's output into the
JSON-formatting model, and the summary pipeline invokes the summary
chain, then the confidence chain on the post-processed summary, then
classification on that same summary, in that order. -/
theorem C5_sequential_invocations (llama fmt : String → String)
    (ctx : String) (h : String → Int) (env : SummaryEnv) :
    full_extraction_chain llama fmt ctx
      = (fmt (llama ctx),
         [Step.llamaExtract ctx, Step.jsonFormat (llama ctx)])
    ∧ (summaryChunks h env ≠ [] →
        (process_document_for_summary h env).2
          = [Step.summaryChain (summaryContext h env),
             Step.confidenceChain (finalSummaryOf h env),
             Step.classifyStep (finalSummaryOf h env)]) := by
  refine ⟨rfl, fun hne => ?_⟩
  rw [process_summary_nonempty h env hne]

/-- Witness for C5 at a concrete environment. -/
theorem C5_sequential_invocations_witness :
    full_extraction_chain (fun s => s ++ "|L") (fun s => s ++ "|F") "ctx"
      = ("ctx|L|F",
         [Step.llamaExtract "ctx", Step.jsonFormat "ctx|L"])
    ∧ (process_document_for_summary (fun _ => 0)
        ⟨[⟨"chunk text", some 0⟩], [], [], [], [], .error (), "",
          fun _ => "ctx", fun s => s ++ "|S", fun s => s ++ "|P",
          fun _ => .ok 1, fun _ => "CLIMATE"⟩).2
      = [Step.summaryChain "ctx", Step.confidenceChain "ctx|S|P",
         Step.classifyStep "ctx|S|P"] := by
  have h := C5_sequential_invocations (fun s => s ++ "|L")
    (fun s => s ++ "|F") "ctx" (fun _ => 0)
    ⟨[⟨"chunk text", some 0⟩], [], [], [], [], .error (), "",
      fun _ => "ctx", fun s => s ++ "|S", fun s => s ++ "|P",
      fun _ => .ok 1, fun _ => "CLIMATE"⟩
  exact ⟨h.1, h.2
    (by intro he; exact absurd (congrArg List.length he) (by decide))⟩

/-- C9: the context passed to the extraction chain is the first
`MAX_CHUNKS = 20` elements of priority docs followed by retrieved docs,
so it never exceeds 20 chunks and priority-page chunks are kept in
preference to the lowest-ranked retrieved chunks. -/
theorem C9_context_truncation (h : String → Int) (env : ExtractionEnv) :
    (contextDocs h env).length ≤ MAX_CHUNKS
    ∧ contextDocs h env
        = (priorityDocs h env ++ env.retrieved).take MAX_CHUNKS
    ∧ ((priorityDocs h env).length ≤ MAX_CHUNKS →
        contextDocs h env
          = priorityDocs h env
            ++ env.retrieved.take
                (MAX_CHUNKS - (priorityDocs h env).length))
    ∧ (env.retrieved ≠ [] →
        (process_document_for_data_extraction h env).2
          = [Step.extractionChain
              (prepare_context_for_extraction (contextDocs h env))]) := by
  have hm : contextDocs h env
      = (priorityDocs h env ++ env.retrieved).take MAX_CHUNKS := by
    unfold contextDocs
    rw [mergedDocs_eq]
    by_cases hlen : MAX_CHUNKS < (priorityDocs h env ++ env.retrieved).length
    · rw [if_pos hlen]
    · rw [if_neg hlen,
        List.take_of_length_le (Nat.le_of_not_lt hlen)]
  refine ⟨?_, hm, ?_, ?_⟩
  · rw [hm]
    simp [List.length_take]
  · intro hple
    rw [hm, List.take_append_eq_append_take,
      List.take_of_length_le hple]
  · intro hne
    unfold process_document_for_data_extraction
    have hie : env.retrieved.isEmpty = false := by
      cases hd : env.retrieved with
      | nil => exact absurd hd hne
      | cons a l => rfl
    rw [hie]
    cases hc : env.chainResult
        (prepare_context_for_extraction (contextDocs h env)) with
    | error e => rfl
    | ok raw => rfl

/-- A concrete extraction environment: 21 retrieved chunks and one
priority (page-0) chunk, so the merge exceeds `MAX_CHUNKS`. -/
def c9Env : ExtractionEnv :=
  { retrieved :=
      (List.range 21).map (fun i => ⟨"retrieved " ++ toString i, some 10⟩)
    tablePages := .ok []
    allPages := .ok [⟨"page zero content", some 0⟩]
    chainResult := fun _ => .error () }

/-- Witness for C9: 21 retrieved chunks plus one priority page chunk;
the last retrieved chunk is dropped, the priority chunk survives. -/
theorem C9_context_truncation_witness :
    (contextDocs (fun s => (s.length : Int)) c9Env).length ≤ MAX_CHUNKS
    ∧ contextDocs (fun s => (s.length : Int)) c9Env
        = priorityDocs (fun s => (s.length : Int)) c9Env
          ++ c9Env.retrieved.take
              (MAX_CHUNKS
                - (priorityDocs (fun s => (s.length : Int)) c9Env).length) := by
  have h := C9_context_truncation (fun s => (s.length : Int)) c9Env
  exact ⟨h.1, h.2.2.1 (by decide)⟩

/-- The retention condition of claim C6, stated over a raw point: key of
lowercased length at least 10, non-empty stripped value not equal
(case-insensitively) to `data not provided`, no structural-noise keyword
in the key, and a unit present whenever the value with `.` and `,`
removed is all digits. -/
def c6Keep (p : RawPoint) : Bool :=
  decide (10 ≤ (pyLower (p.key.getD "")).data.length)
  && !(pyStrip (p.value.getD "")).data.isEmpty
  && !(pyLower (pyStrip (p.value.getD "")) == "data not provided")
  && !(suspicious_keywords.any
        (fun kw => pyIn kw (pyLower (p.key.getD ""))))
  && (!pyIsDigit (pyRemoveChar ',' (pyRemoveChar '.'
        (pyStrip (p.value.getD "")))) || pyTruthy p.unit)

theorem validatePointStep_eq_c6Keep (p : RawPoint) :
    validatePointStep p = c6Keep p := by
  unfold validatePointStep c6Keep
  by_cases h1 : (pyLower (p.key.getD "")).data.length < 10
  · rw [if_pos h1]
    have h1f : decide (10 ≤ (pyLower (p.key.getD "")).data.length) = false := by
      rw [decide_eq_false_iff_not]
      exact Nat.not_le.mpr h1
    rw [h1f]
    rfl
  · rw [if_neg h1]
    have h1t : decide (10 ≤ (pyLower (p.key.getD "")).data.length) = true := by
      rw [decide_eq_true_eq]
      exact Nat.le_of_not_lt h1
    rw [h1t, Bool.true_and]
    generalize (pyStrip (p.value.getD "")).data.isEmpty = e
    generalize (pyLower (pyStrip (p.value.getD ""))
      == "data not provided") = dnp
    generalize (suspicious_keywords.any
      (fun kw => pyIn kw (pyLower (p.key.getD "")))) = sus
    generalize pyIsDigit (pyRemoveChar ',' (pyRemoveChar '.'
      (pyStrip (p.value.getD "")))) = dig
    generalize pyTruthy p.unit = un
    cases e <;> cases dnp <;> cases sus <;> cases dig <;> cases un <;> rfl

/-- C6: on a dict with an `extracted_points` list,
`_validate_and_filter_extractions` returns the same dict with that list
replaced by the subsequence of points passing the four retention tests;
a dict without the key is returned unchanged. -/
theorem C6_validate_and_filter (r : ResultDict) (pts : List RawPoint) :
    (r.extracted_points = some pts →
      _validate_and_filter_extractions r
        = { r with extracted_points := some (pts.filter c6Keep) })
    ∧ (r.extracted_points = none →
      _validate_and_filter_extractions r = r) := by
  constructor
  · intro hsome
    unfold _validate_and_filter_extractions
    rw [hsome]
    have hfc : pts.filter validatePointStep = pts.filter c6Keep :=
      List.filter_congr (fun a _ => validatePointStep_eq_c6Keep a)
    show ({ extracted_points := some (pts.filter validatePointStep),
            extra := r.extra } : ResultDict) = _
    rw [hfc]
  · intro hnone
    unfold _validate_and_filter_extractions
    rw [hnone]

/-- Witness for C6: a concrete dict with one valid point, one rejected
for a short key, one rejected for a numeric value without unit. -/
theorem C6_validate_and_filter_witness :
    _validate_and_filter_extractions
        ⟨some [⟨some "GDP Growth rate", some " 54.6 ", some "%"⟩,
               ⟨some "GDP", some "54.6", some "%"⟩,
               ⟨some "Total beneficiaries", some "12,000", none⟩],
         [("source", "report")]⟩
      = ⟨some ([⟨some "GDP Growth rate", some " 54.6 ", some "%"⟩,
                ⟨some "GDP", some "54.6", some "%"⟩,
                ⟨some "Total beneficiaries", some "12,000", none⟩].filter
                 c6Keep),
         [("source", "report")]⟩
    ∧ ([(⟨some "GDP Growth rate", some " 54.6 ", some "%"⟩ : RawPoint),
        ⟨some "GDP", some "54.6", some "%"⟩,
        ⟨some "Total beneficiaries", some "12,000", none⟩].filter c6Keep)
      = [⟨some "GDP Growth rate", some " 54.6 ", some "%"⟩] := by
  refine ⟨?_, by decide⟩
  exact (C6_validate_and_filter
    ⟨some [⟨some "GDP Growth rate", some " 54.6 ", some "%"⟩,
           ⟨some "GDP", some "54.6", some "%"⟩,
           ⟨some "Total beneficiaries", some "12,000", none⟩],
     [("source", "report")]⟩
    [⟨some "GDP Growth rate", some " 54.6 ", some "%"⟩,
     ⟨some "GDP", some "54.6", some "%"⟩,
     ⟨some "Total beneficiaries", some "12,000", none⟩]).1 rfl

/-! ## `src/retrieval/utils.py`: `load_and_split_pdf` -/

/-- A chunk produced by the splitter, with its metadata entries. -/
structure Chunk where
  page_content : String
  page : Option Int
  source : Option String
  source_file : Option String
  document_id : Option String
  document_title : Option String
deriving DecidableEq, Repr

/-- `load_and_split_pdf` from `utils.py`.  The external effects are
inputs: `fileIsFile` is `os.path.isfile(file_path)`, and `split_result`
is the outcome of the whole pdfplumber page loop plus
`RecursiveCharacterTextSplitter.split_documents` (`Except.error` models
any exception raised there).  Every raised exception, including the
`FileNotFoundError` for a missing file, is caught by the enclosing
`except` and yields `[]`; otherwise each chunk gets `source_file`,
`document_id` (when given) and `document_title` (when truthy) metadata. -/
def load_and_split_pdf (fileIsFile : Bool)
    (split_result : Except Unit (List Chunk)) (file_path : String)
    (document_id : Option Int) (document_title : Option String) :
    List Chunk :=
  if !fileIsFile then []
  else
    match split_result with
    | .error _ => []
    | .ok chunks =>
        chunks.map (fun c =>
          { c with
            source_file := some file_path
            document_id :=
              match document_id with
              | some n => some (toString n)
              | none => c.document_id
            document_title :=
              match document_title with
              | some t => if !t.data.isEmpty then some t else c.document_title
              | none => c.document_title })

theorem data_ne_nil_of_ne_empty {t : String} (h : t ≠ "") :
    t.data ≠ [] := by
  intro hd
  apply h
  cases t with
  | mk l =>
    simp only at hd
    rw [hd]

theorem isEmpty_false_of_ne_nil {l : List Char} (h : l ≠ []) :
    l.isEmpty = false := by
  cases l with
  | nil => exact absurd rfl h
  | cons a t => rfl

/-- C8: `load_and_split_pdf` returns the empty list on a missing file and
on any exception during loading or splitting, and every chunk of a
result carries `source_file` equal to the given path, `document_id` equal
to `str(document_id)` when an id is given, and `document_title` equal to
the given title when a non-empty one is given. -/
theorem C8_load_and_split_pdf (fileIsFile : Bool)
    (split_result : Except Unit (List Chunk)) (file_path : String)
    (document_id : Option Int) (document_title : Option String) :
    (fileIsFile = false →
      load_and_split_pdf fileIsFile split_result file_path document_id
        document_title = [])
    ∧ (split_result = .error () →
      load_and_split_pdf fileIsFile split_result file_path document_id
        document_title = [])
    ∧ (∀ c ∈ load_and_split_pdf fileIsFile split_result file_path
          document_id document_title,
        c.source_file = some file_path
        ∧ (∀ n, document_id = some n → c.document_id = some (toString n))
        ∧ (∀ t, document_title = some t → t ≠ "" →
            c.document_title = some t)) := by
  refine ⟨?_, ?_, ?_⟩
  · intro hf
    unfold load_and_split_pdf
    rw [hf]
    rfl
  · intro hs
    unfold load_and_split_pdf
    rw [hs]
    cases fileIsFile <;> rfl
  · intro c hc
    unfold load_and_split_pdf at hc
    cases hf : fileIsFile with
    | false =>
      rw [hf] at hc
      exact absurd hc (by simp)
    | true =>
      rw [hf] at hc
      cases hsr : split_result with
      | error e =>
        rw [hsr] at hc
        exact absurd hc (by simp)
      | ok chunks =>
        rw [hsr] at hc
        split at hc
        · exact absurd hc (by simp)
        · rw [List.mem_map] at hc
          obtain ⟨a, ha, rfl⟩ := hc
          refine ⟨rfl, ?_, ?_⟩
          · intro n hn
            rw [hn]
          · intro t ht hne
            rw [ht]
            show (if !t.data.isEmpty then some t else a.document_title)
              = some t
            rw [isEmpty_false_of_ne_nil (data_ne_nil_of_ne_empty hne)]
            rfl

/-- Witness for C8 at a concrete split result. -/
theorem C8_load_and_split_pdf_witness :
    load_and_split_pdf false (.ok []) "/app/x.pdf" none none = []
    ∧ load_and_split_pdf true (.error ()) "/app/x.pdf" none none = []
    ∧ load_and_split_pdf true
        (.ok [⟨"content", some 0, some "/app/x.pdf", none, none, none⟩])
        "/app/x.pdf" (some 7) (some "Report 2024")
      = [⟨"content", some 0, some "/app/x.pdf", some "/app/x.pdf",
          some "7", some "Report 2024"⟩]
    ∧ (⟨"content", some 0, some "/app/x.pdf", some "/app/x.pdf",
        some "7", some "Report 2024"⟩ : Chunk).source_file
        = some "/app/x.pdf"
    ∧ (⟨"content", some 0, some "/app/x.pdf", some "/app/x.pdf",
        some "7", some "Report 2024"⟩ : Chunk).document_id
        = some (toString (7 : Int))
    ∧ (⟨"content", some 0, some "/app/x.pdf", some "/app/x.pdf",
        some "7", some "Report 2024"⟩ : Chunk).document_title
        = some "Report 2024" := by
  have h3 := (C8_load_and_split_pdf true
    (.ok [⟨"content", some 0, some "/app/x.pdf", none, none, none⟩])
    "/app/x.pdf" (some 7) (some "Report 2024")).2.2
    ⟨"content", some 0, some "/app/x.pdf", some "/app/x.pdf", some "7",
      some "Report 2024"⟩ (by decide)
  exact ⟨(C8_load_and_split_pdf false (.ok []) "/app/x.pdf"
      none none).1 rfl,
    (C8_load_and_split_pdf true (.error ()) "/app/x.pdf"
      none none).2.1 rfl,
    by decide,
    h3.1, h3.2.1 7 rfl, h3.2.2 "Report 2024" rfl (by decide)⟩

/-! ## `src/ia_service/main.py`: the `analyze_document` endpoint -/

/-- A Python exception, distinguished by whether it is a `ValueError`. -/
inductive PyExc where
  | valueError (msg : String)
  | otherExc (msg : String)
deriving DecidableEq, Repr

/-- The success response: exactly the keys `summary`, `extracted_data`
and `category`. -/
structure AnalyzeResponse where
  summary : String × ℚ
  extracted_data : List ApiPoint
  category : String
deriving DecidableEq, Repr

/-- The outcomes of the four calls made inside the endpoint's `try`
block, in order: `get_absolute_file_path`, ingestion, data extraction
and summarization (the latter yielding the `summary` and `category`
sub-dictionaries). -/
structure EndpointEnv where
  resolve : Except PyExc String
  ingest : Except PyExc Unit
  extract : Except PyExc (List ApiPoint)
  summarize : Except PyExc ((String × ℚ) × String)

/-- The two `except` handlers of `analyze_document`: a `ValueError`
becomes `HTTPException(404, str(e))`, anything else
`HTTPException(500, "Analysis failed: " + str(e))`. -/
def httpOfExc : PyExc → Nat × String
  | .valueError m => (404, m)
  | .otherExc m => (500, "Analysis failed: " ++ m)

/-- `analyze_document` from `main.py`: the calls run in order inside one
`try`; the first raised exception reaches the handlers. -/
def analyze_document (env : EndpointEnv) :
    Except (Nat × String) AnalyzeResponse :=
  match env.resolve with
  | .error e => .error (httpOfExc e)
  | .ok _ =>
      match env.ingest with
      | .error e => .error (httpOfExc e)
      | .ok _ =>
          match env.extract with
          | .error e => .error (httpOfExc e)
          | .ok extracted_data =>
              match env.summarize with
              | .error e => .error (httpOfExc e)
              | .ok s => .ok ⟨s.1, extracted_data, s.2⟩

/-- The first exception raised inside the `try` block, if any. -/
def firstExc (env : EndpointEnv) : Option PyExc :=
  match env.resolve with
  | .error e => some e
  | .ok _ =>
      match env.ingest with
      | .error e => some e
      | .ok _ =>
          match env.extract with
          | .error e => some e
          | .ok _ =>
              match env.summarize with
              | .error e => some e
              | .ok _ => none

/-- An environment whose path resolution succeeds but whose ingestion
step raises a `ValueError`. -/
def c7Env : EndpointEnv :=
  { resolve := .ok "/app/bucket/reportAPI/doc.pdf"
    ingest := .error (.valueError "boom")
    extract := .ok []
    summarize := .ok (("s", 0), "c") }

/-- C7 counterexample: the endpoint answers 404 although path resolution
did not raise a `ValueError` — the `except ValueError` handler catches
`ValueError`s from every step of the `try` block, so 404 is not raised
"exactly when path resolution raises ValueError". -/
theorem C7_counterexample :
    analyze_document c7Env = .error (404, "boom")
    ∧ c7Env.resolve = .ok "/app/bucket/reportAPI/doc.pdf" := ⟨rfl, rfl⟩

theorem analyze_document_cases (env : EndpointEnv) :
    (∀ e, firstExc env = some e →
      analyze_document env = .error (httpOfExc e))
    ∧ (∀ p ed s, env.resolve = .ok p → env.ingest = .ok () →
        env.extract = .ok ed → env.summarize = .ok s →
        analyze_document env = .ok ⟨s.1, ed, s.2⟩) := by
  constructor
  · intro e he
    obtain ⟨r0, i0, e0, s0⟩ := env
    cases r0 with
    | error ex =>
      obtain rfl : ex = e := Option.some.inj he
      rfl
    | ok p =>
      cases i0 with
      | error ex =>
        obtain rfl : ex = e := Option.some.inj he
        rfl
      | ok u =>
        cases e0 with
        | error ex =>
          obtain rfl : ex = e := Option.some.inj he
          rfl
        | ok ed =>
          cases s0 with
          | error ex =>
            obtain rfl : ex = e := Option.some.inj he
            rfl
          | ok s => exact absurd he (by simp [firstExc])
  · intro p ed s hr hi he hs
    unfold analyze_document
    rw [hr, hi, he, hs]

/-- C7 amended: the endpoint answers 404 with the exception message
whenever the first exception raised in the `try` block is a `ValueError`
(in particular when path resolution fails because the file does not
exist), answers 500 with `Analysis failed: ...` for any non-`ValueError`
exception, and on success returns exactly the keys `summary`,
`extracted_data` and `category`. -/
theorem C7_analyze_document_amended (env : EndpointEnv) :
    (∀ m, firstExc env = some (.valueError m) →
      analyze_document env = .error (404, m))
    ∧ (∀ m, firstExc env = some (.otherExc m) →
      analyze_document env = .error (500, "Analysis failed: " ++ m))
    ∧ (∀ p ed s, env.resolve = .ok p → env.ingest = .ok () →
        env.extract = .ok ed → env.summarize = .ok s →
        analyze_document env = .ok ⟨s.1, ed, s.2⟩) := by
  refine ⟨?_, ?_, (analyze_document_cases env).2⟩
  · intro m hm
    rw [(analyze_document_cases env).1 (.valueError m) hm]
    rfl
  · intro m hm
    rw [(analyze_document_cases env).1 (.otherExc m) hm]
    rfl

/-- Witness for the amended C7 at concrete environments: a `ValueError`
from inside the block gives 404, a generic exception gives 500, and a
fully successful run returns the three-key response. -/
theorem C7_analyze_document_amended_witness :
    analyze_document c7Env = .error (404, "boom")
    ∧ analyze_document
        ⟨.ok "/app/f.pdf", .ok (), .error (.otherExc "down"), .ok (("s", 0), "c")⟩
      = .error (500, "Analysis failed: down")
    ∧ analyze_document
        ⟨.ok "/app/f.pdf", .ok (), .ok [], .ok (("s", 0), "c")⟩
      = .ok ⟨("s", 0), [], "c"⟩ := by
  refine ⟨(C7_analyze_document_amended c7Env).1 "boom" rfl, ?_, ?_⟩
  · exact (C7_analyze_document_amended
      ⟨.ok "/app/f.pdf", .ok (), .error (.otherExc "down"),
        .ok (("s", 0), "c")⟩).2.1 "down" rfl
  · exact (C7_analyze_document_amended
      ⟨.ok "/app/f.pdf", .ok (), .ok [], .ok (("s", 0), "c")⟩).2.2
      "/app/f.pdf" [] (("s", 0), "c") rfl rfl rfl rfl

/-! ## Deduplication invariants (claim C10) -/

theorem find?_append_of_some {α : Type} (p : α → Bool) (l1 l2 : List α)
    (a : α) (h : l1.find? p = some a) : (l1 ++ l2).find? p = some a := by
  induction l1 with
  | nil => exact absurd h (by simp)
  | cons x rest ih =>
    by_cases hx : p x
    · rw [List.find?_cons_of_pos _ hx] at h
      rw [List.cons_append, List.find?_cons_of_pos _ hx]
      exact h
    · rw [List.find?_cons_of_neg _ hx] at h
      rw [List.cons_append, List.find?_cons_of_neg _ hx]
      exact ih h

theorem find?_append_of_none {α : Type} (p : α → Bool) (l1 l2 : List α)
    (h : l1.find? p = none) : (l1 ++ l2).find? p = l2.find? p := by
  induction l1 with
  | nil => rfl
  | cons x rest ih =>
    by_cases hx : p x
    · rw [List.find?_cons_of_pos _ hx] at h
      exact absurd h (by simp)
    · rw [List.find?_cons_of_neg _ hx] at h
      rw [List.cons_append, List.find?_cons_of_neg _ hx]
      exact ih h

theorem find?_hash_cons_ne (h : String → Int) (x d : Doc)
    (rest : List Doc) (hne : hashOf h x ≠ hashOf h d) :
    (x :: rest).find? (fun c => hashOf h c == hashOf h d)
      = rest.find? (fun c => hashOf h c == hashOf h d) := by
  have hb : (hashOf h x == hashOf h d) = false := by
    rw [beq_eq_false_iff_ne]
    exact hne
  simp [List.find?, hb]

theorem find?_hash_cons_self (h : String → Int) (x : Doc)
    (rest : List Doc) :
    (x :: rest).find? (fun c => hashOf h c == hashOf h x) = some x := by
  simp [List.find?]

theorem dedupConcat_seen_sub (h : String → Int) :
    ∀ (l : List Doc) (seen : List Int) (v : Int),
      v ∈ seen → v ∈ (dedupConcat h l seen).2 := by
  intro l
  induction l with
  | nil => intro seen v hv; exact hv
  | cons x rest ih =>
    intro seen v hv
    unfold dedupConcat
    by_cases hx : hashOf h x ∈ seen
    · rw [if_pos hx]
      exact ih seen v hv
    · rw [if_neg hx]
      exact ih (hashOf h x :: seen) v (List.mem_cons_of_mem _ hv)

theorem dedupConcat_input_hash_in_snd (h : String → Int) :
    ∀ (l : List Doc) (seen : List Int) (d : Doc),
      d ∈ l → hashOf h d ∈ (dedupConcat h l seen).2 := by
  intro l
  induction l with
  | nil => intro seen d hd; exact absurd hd (by simp)
  | cons x rest ih =>
    intro seen d hd
    unfold dedupConcat
    by_cases hx : hashOf h x ∈ seen
    · rw [if_pos hx]
      rcases List.mem_cons.mp hd with rfl | hd'
      · exact dedupConcat_seen_sub h rest seen _ hx
      · exact ih seen d hd'
    · rw [if_neg hx]
      rcases List.mem_cons.mp hd with rfl | hd'
      · exact dedupConcat_seen_sub h rest _ _ (List.mem_cons_self _ _)
      · exact ih _ d hd'

theorem dedupConcat_out_notin_seen (h : String → Int) :
    ∀ (l : List Doc) (seen : List Int) (d : Doc),
      d ∈ (dedupConcat h l seen).1 → hashOf h d ∉ seen := by
  intro l
  induction l with
  | nil => intro seen d hd; exact absurd hd (by simp [dedupConcat])
  | cons x rest ih =>
    intro seen d hd
    unfold dedupConcat at hd
    by_cases hx : hashOf h x ∈ seen
    · rw [if_pos hx] at hd
      exact ih seen d hd
    · rw [if_neg hx] at hd
      rcases List.mem_cons.mp hd with rfl | hd'
      · exact hx
      · intro hs
        exact ih _ d hd' (List.mem_cons_of_mem _ hs)

theorem dedupConcat_out_hash_in_snd (h : String → Int) :
    ∀ (l : List Doc) (seen : List Int) (d : Doc),
      d ∈ (dedupConcat h l seen).1 → hashOf h d ∈ (dedupConcat h l seen).2 := by
  intro l
  induction l with
  | nil => intro seen d hd; exact absurd hd (by simp [dedupConcat])
  | cons x rest ih =>
    intro seen d hd
    unfold dedupConcat at hd ⊢
    by_cases hx : hashOf h x ∈ seen
    · rw [if_pos hx] at hd ⊢
      exact ih seen d hd
    · rw [if_neg hx] at hd ⊢
      rcases List.mem_cons.mp hd with rfl | hd'
      · exact dedupConcat_seen_sub h rest _ _ (List.mem_cons_self _ _)
      · exact ih _ d hd'

theorem dedupConcat_pairwise (h : String → Int) :
    ∀ (l : List Doc) (seen : List Int),
      (dedupConcat h l seen).1.Pairwise
        (fun a b => hashOf h a ≠ hashOf h b) := by
  intro l
  induction l with
  | nil => intro seen; simp [dedupConcat]
  | cons x rest ih =>
    intro seen
    unfold dedupConcat
    by_cases hx : hashOf h x ∈ seen
    · rw [if_pos hx]
      exact ih seen
    · rw [if_neg hx]
      refine List.Pairwise.cons ?_ (ih _)
      intro b hb
      have := dedupConcat_out_notin_seen h rest _ b hb
      intro he
      exact this (he ▸ List.mem_cons_self _ _)

theorem dedupConcat_first_kept (h : String → Int) :
    ∀ (l : List Doc) (seen : List Int) (d : Doc),
      d ∈ (dedupConcat h l seen).1 →
      l.find? (fun c => hashOf h c == hashOf h d) = some d := by
  intro l
  induction l with
  | nil => intro seen d hd; exact absurd hd (by simp [dedupConcat])
  | cons x rest ih =>
    intro seen d hd
    unfold dedupConcat at hd
    by_cases hx : hashOf h x ∈ seen
    · rw [if_pos hx] at hd
      have hne : hashOf h d ∉ seen :=
        dedupConcat_out_notin_seen h rest seen d hd
      have hxd : hashOf h x ≠ hashOf h d := by
        intro hb
        exact hne (hb ▸ hx)
      rw [find?_hash_cons_ne h x d rest hxd]
      exact ih seen d hd
    · rw [if_neg hx] at hd
      rcases List.mem_cons.mp hd with rfl | hd2
      · exact find?_hash_cons_self h _ _
      · have hne : hashOf h d ∉ hashOf h x :: seen :=
          dedupConcat_out_notin_seen h rest _ d hd2
        have hxd : hashOf h x ≠ hashOf h d := by
          intro hb
          exact hne (List.mem_cons.mpr (Or.inl hb.symm))
        rw [find?_hash_cons_ne h x d rest hxd]
        exact ih _ d hd2

theorem forceReadPrepend_mem (h : String → Int) :
    ∀ (l : List Doc) (acc : List Doc) (seen : List Int) (d : Doc),
      d ∈ forceReadPrepend h l acc seen →
      d ∈ acc
      ∨ (hashOf h d ∉ seen
         ∧ l.find? (fun c => hashOf h c == hashOf h d) = some d) := by
  intro l
  induction l with
  | nil => intro acc seen d hd; exact Or.inl hd
  | cons x rest ih =>
    intro acc seen d hd
    unfold forceReadPrepend at hd
    by_cases hx : hashOf h x ∈ seen
    · rw [if_pos hx] at hd
      rcases ih acc seen d hd with hacc | ⟨hni, hfind⟩
      · exact Or.inl hacc
      · refine Or.inr ⟨hni, ?_⟩
        have hxd : hashOf h x ≠ hashOf h d := by
          intro hb
          exact hni (hb ▸ hx)
        rw [find?_hash_cons_ne h x d rest hxd]
        exact hfind
    · rw [if_neg hx] at hd
      rcases ih (x :: acc) (hashOf h x :: seen) d hd with hacc | ⟨hni, hfind⟩
      · rcases List.mem_cons.mp hacc with rfl | hacc'
        · refine Or.inr ⟨hx, ?_⟩
          exact find?_hash_cons_self h _ _
        · exact Or.inl hacc'
      · have hnis : hashOf h d ∉ seen :=
          fun hs => hni (List.mem_cons_of_mem _ hs)
        refine Or.inr ⟨hnis, ?_⟩
        have hxd : hashOf h x ≠ hashOf h d := by
          intro hb
          exact hni (List.mem_cons.mpr (Or.inl hb.symm))
        rw [find?_hash_cons_ne h x d rest hxd]
        exact hfind

theorem forceReadPrepend_pairwise (h : String → Int) :
    ∀ (l : List Doc) (acc : List Doc) (seen : List Int),
      (∀ a ∈ acc, hashOf h a ∈ seen) →
      acc.Pairwise (fun a b => hashOf h a ≠ hashOf h b) →
      (forceReadPrepend h l acc seen).Pairwise
        (fun a b => hashOf h a ≠ hashOf h b) := by
  intro l
  induction l with
  | nil => intro acc seen _ hp; exact hp
  | cons x rest ih =>
    intro acc seen hsub hp
    unfold forceReadPrepend
    by_cases hx : hashOf h x ∈ seen
    · rw [if_pos hx]
      exact ih acc seen hsub hp
    · rw [if_neg hx]
      refine ih (x :: acc) (hashOf h x :: seen) ?_ ?_
      · intro a ha
        rcases List.mem_cons.mp ha with rfl | ha'
        · exact List.mem_cons_self _ _
        · exact List.mem_cons_of_mem _ (hsub a ha')
      · refine List.Pairwise.cons ?_ hp
        intro b hb
        intro he
        exact hx (he ▸ hsub b hb)

theorem pickPriorityDocs_notin_seen (h : String → Int) (pp : List Int) :
    ∀ (l : List Doc) (seen : List Int) (d : Doc),
      d ∈ pickPriorityDocs h pp l seen → hashOf h d ∉ seen := by
  intro l
  induction l with
  | nil =>
    intro seen d hd
    exact absurd hd (by simp [pickPriorityDocs])
  | cons x rest ih =>
    intro seen d hd
    unfold pickPriorityDocs at hd
    by_cases hn : pagePriority pp x.page
    · rw [if_pos hn] at hd
      by_cases hx : hashOf h x ∈ seen
      · rw [if_pos hx] at hd
        exact ih seen d hd
      · rw [if_neg hx] at hd
        rcases List.mem_cons.mp hd with rfl | hd'
        · exact hx
        · intro hs
          exact ih _ d hd' (List.mem_cons_of_mem _ hs)
    · rw [if_neg hn] at hd
      exact ih seen d hd

theorem pickPriorityDocs_pairwise (h : String → Int) (pp : List Int) :
    ∀ (l : List Doc) (seen : List Int),
      (pickPriorityDocs h pp l seen).Pairwise
        (fun a b => hashOf h a ≠ hashOf h b) := by
  intro l
  induction l with
  | nil => intro seen; simp [pickPriorityDocs]
  | cons x rest ih =>
    intro seen
    unfold pickPriorityDocs
    by_cases hn : pagePriority pp x.page
    · rw [if_pos hn]
      by_cases hx : hashOf h x ∈ seen
      · rw [if_pos hx]
        exact ih seen
      · rw [if_neg hx]
        refine List.Pairwise.cons ?_ (ih _)
        intro b hb he
        exact pickPriorityDocs_notin_seen h pp rest _ b hb
          (he ▸ List.mem_cons_self _ _)
    · rw [if_neg hn]
      exact ih seen

/-- The force-read first pages of the summary pipeline (empty when
`load_and_split_pdf` raised). -/
def summaryForcePages (env : SummaryEnv) : List Doc :=
  match env.allPages with
  | .error _ => []
  | .ok all_pages => firstPagesOf all_pages

def c10Hash : String → Int := fun s => (s.length : Int)

def c10Doc : Doc := ⟨"same content", some 5⟩

/-- An extraction environment whose retrieval returns the same chunk
twice: the priority-page merge deduplicates only the priority chunks
against what was already seen, never the retrieved chunks against each
other. -/
def c10Env : ExtractionEnv :=
  { retrieved := [c10Doc, c10Doc]
    tablePages := .ok []
    allPages := .ok []
    chainResult := fun _ => .error () }

/-- C10 counterexample: in the extraction merge, two retrieved chunks
with identical content (hence the same content-prefix hash) both survive
into the final context list, so the final list is not hash-deduplicated
as the claim states. -/
theorem C10_counterexample :
    contextDocs c10Hash c10Env = [c10Doc, c10Doc]
    ∧ ¬ (contextDocs c10Hash c10Env).Pairwise
        (fun a b => hashOf c10Hash a ≠ hashOf c10Hash b) := by
  refine ⟨rfl, ?_⟩
  intro hp
  have hp2 : ([c10Doc, c10Doc] : List Doc).Pairwise
      (fun a b => hashOf c10Hash a ≠ hashOf c10Hash b) := hp
  cases hp2 with
  | cons h1 _ => exact h1 c10Doc (List.mem_cons_self _ _) rfl

/-- C10 amended: the summary pipeline's final chunk list is
hash-deduplicated and keeps, for each content-prefix hash, the first
chunk encountered in processing order (the five retrieval lists, then
the force-read first pages); in the extraction pipeline only the
priority-page chunks are deduplicated — they are pairwise hash-distinct
and hash-distinct from every retrieved chunk — while duplicates already
present among the retrieved chunks are kept. -/
theorem C10_dedup_amended (h : String → Int) (envS : SummaryEnv)
    (envE : ExtractionEnv) :
    (summaryChunks h envS).Pairwise
        (fun a b => hashOf h a ≠ hashOf h b)
    ∧ (∀ d ∈ summaryChunks h envS,
        (summaryCandidates envS ++ summaryForcePages envS).find?
          (fun c => hashOf h c == hashOf h d) = some d)
    ∧ (priorityDocs h envE).Pairwise
        (fun a b => hashOf h a ≠ hashOf h b)
    ∧ (∀ d ∈ priorityDocs h envE, ∀ r ∈ envE.retrieved,
        hashOf h d ≠ hashOf h r) := by
  refine ⟨?_, ?_, ?_, ?_⟩
  · unfold summaryChunks
    cases hap : envS.allPages with
    | error e => exact dedupConcat_pairwise h (summaryCandidates envS) []
    | ok l =>
      exact forceReadPrepend_pairwise h (firstPagesOf l) _ _
        (fun a ha => dedupConcat_out_hash_in_snd h _ [] a ha)
        (dedupConcat_pairwise h (summaryCandidates envS) [])
  · intro d hd
    unfold summaryChunks at hd
    have hfp : summaryForcePages envS
        = match envS.allPages with
          | .error _ => []
          | .ok l => firstPagesOf l := rfl
    cases hap : envS.allPages with
    | error e =>
      rw [hap] at hd hfp
      rw [hfp, List.append_nil]
      exact dedupConcat_first_kept h (summaryCandidates envS) [] d hd
    | ok l =>
      rw [hap] at hd hfp
      rw [hfp]
      rcases forceReadPrepend_mem h (firstPagesOf l) _ _ d hd
        with hdd | ⟨hni, hfind⟩
      · exact find?_append_of_some _ _ _ d
          (dedupConcat_first_kept h (summaryCandidates envS) [] d hdd)
      · have hnone : (summaryCandidates envS).find?
            (fun c => hashOf h c == hashOf h d) = none := by
          rw [List.find?_eq_none]
          intro c hc hb
          have hcs := dedupConcat_input_hash_in_snd h
            (summaryCandidates envS) [] c hc
          rw [beq_iff_eq] at hb
          exact hni (hb ▸ hcs)
        rw [find?_append_of_none _ _ _ hnone]
        exact hfind
  · unfold priorityDocs
    cases hap : envE.allPages with
    | error e => exact List.Pairwise.nil
    | ok l => exact pickPriorityDocs_pairwise h (priorityPages envE) l _
  · intro d hd r hr
    unfold priorityDocs at hd
    cases hap : envE.allPages with
    | error e =>
      rw [hap] at hd
      exact absurd hd (by simp)
    | ok l =>
      rw [hap] at hd
      have hni := pickPriorityDocs_notin_seen h (priorityPages envE) l
        (envE.retrieved.map (hashOf h)) d hd
      intro he
      exact hni (he ▸ List.mem_map_of_mem (hashOf h) hr)

/-- A summary environment with a duplicated chunk across queries. -/
def c10SumEnv : SummaryEnv :=
  { cover := [⟨"alpha chunk one", some 0⟩]
    intro := [⟨"alpha chunk one", some 0⟩, ⟨"beta chunk two", some 1⟩]
    technical := []
    socio := []
    project := []
    allPages := .ok []
    fileTitle := ""
    prepareContext := fun _ => ""
    summaryLLM := fun s => s
    post := fun s => s
    confidence := fun _ => .ok 1
    classify := fun _ => "" }

/-- An extraction environment with one retrieved chunk and one
priority-page chunk with different content. -/
def c10ExtEnv : ExtractionEnv :=
  { retrieved := [⟨"retrieved chunk body", some 10⟩]
    tablePages := .ok []
    allPages := .ok [⟨"page zero", some 0⟩]
    chainResult := fun _ => .error () }

/-- Witness for the amended C10 at concrete environments: the duplicate
chunk is kept once (the first occurrence), and the priority chunk's hash
differs from the retrieved chunk's. -/
theorem C10_dedup_amended_witness :
    summaryChunks c10Hash c10SumEnv
      = [⟨"alpha chunk one", some 0⟩, ⟨"beta chunk two", some 1⟩]
    ∧ (summaryCandidates c10SumEnv ++ summaryForcePages c10SumEnv).find?
        (fun c => hashOf c10Hash c
          == hashOf c10Hash (⟨"alpha chunk one", some 0⟩ : Doc))
      = some ⟨"alpha chunk one", some 0⟩
    ∧ priorityDocs c10Hash c10ExtEnv = [⟨"page zero", some 0⟩]
    ∧ hashOf c10Hash (⟨"page zero", some 0⟩ : Doc)
        ≠ hashOf c10Hash (⟨"retrieved chunk body", some 10⟩ : Doc) := by
  have h := C10_dedup_amended c10Hash c10SumEnv c10ExtEnv
  refine ⟨by decide, ?_, by decide, ?_⟩
  · exact h.2.1 ⟨"alpha chunk one", some 0⟩ (by decide)
  · exact h.2.2.2 ⟨"page zero", some 0⟩ (by decide)
      ⟨"retrieved chunk body", some 10⟩ (by decide)

end EcoSynthesIA
